import Mathlib

/-!
Verification development for the training-data importer composition core
(rasa/importers/importer.py): the `TrainingDataImporter` contract, the
`NluDataImporter` filter, the `CombinedDataImporter` aggregator and the
`E2EImporter` derivation decorator.  Collaborator entity types (Domain,
StoryGraph, TrainingData, Message, Event) live outside the given sources;
they are modelled from the spec's contracts for them.  Async calls are
embedded as plain values/functions; `asyncio.gather` over fallible children
becomes a left-to-right traversal of `Except` results; the E2E story cache
becomes explicit state passing of an `Option StoryGraph`.
-/

namespace RasaImporters

/-- Attribute key for the intent label (rasa.nlu.constants.MESSAGE_INTENT_NAME). -/
def MESSAGE_INTENT_NAME : String := "intent"

/-- Attribute key for the action name (rasa.nlu.constants.MESSAGE_ACTION_NAME). -/
def MESSAGE_ACTION_NAME : String := "action_name"

/-- Attribute key for the end-to-end action text (rasa.nlu.constants.ACTION_TEXT). -/
def ACTION_TEXT : String := "action_text"

/-- Python truthiness of an optional string: `None` and `""` are falsy,
every other string is truthy. -/
def strTruthy : Option String → Bool
  | none => false
  | some s => s != ""

/-- Python `x or ""` on an optional string: the string itself when truthy,
`""` otherwise. -/
def orEmpty (x : Option String) : String :=
  if strTruthy x then x.getD "" else ""

/-- Modelled from the spec: an NLU training example (rasa.nlu.training_data.Message,
not under src/): free text plus a mapping of named attributes to values.
Attribute values are optional strings because Python stores `None` values
(e.g. an absent intent label) directly in the mapping. -/
structure Message where
  text : String
  data : List (String × Option String)
deriving DecidableEq

/-- Message attribute access (Python `message.data.get(key)`): the value of
the first binding of `key`, `none` both when the key is missing and when it
is bound to `None`. -/
def getAttr (m : Message) (k : String) : Option String :=
  match m.data.find? (fun p => p.1 == k) with
  | some p => p.2
  | none => none

/-- Modelled from the spec: the two event variants this core inspects
(rasa.core.events, not under src/): a user utterance carrying free text and
a resolved intent label, and an action-executed event carrying an action
name and an optional end-to-end text.  `otherEvent` stands for every other
event variant. -/
inductive Event where
  | userUttered (text : String) (intent_name : Option String)
  | actionExecuted (action_name : String) (e2e_text : Option String)
  | otherEvent
deriving DecidableEq

/-- Modelled from the spec: one story step, holding a sequence of dialogue
events (rasa.core.training.structures, not under src/). -/
structure StoryStep where
  events : List Event
deriving DecidableEq

/-- Modelled from the spec: a collection of story steps
(rasa.core.training.structures.StoryGraph, not under src/). -/
structure StoryGraph where
  story_steps : List StoryStep
deriving DecidableEq

/-- Modelled from the spec: StoryGraph merge is the union of the two graphs'
steps, preserving each step's internal event order. -/
def StoryGraph.merge (a b : StoryGraph) : StoryGraph :=
  ⟨a.story_steps ++ b.story_steps⟩

/-- Modelled from the spec: NLU training data, an unordered collection of
messages (rasa.nlu.training_data.TrainingData, not under src/). -/
structure TrainingData where
  training_examples : List Message
deriving DecidableEq

/-- Modelled from the spec: the empty TrainingData (`TrainingData()`). -/
def TrainingData.empty : TrainingData := ⟨[]⟩

/-- Modelled from the spec: TrainingData merge is the concatenation (not
deduplication) of the example collections. -/
def TrainingData.merge (a b : TrainingData) : TrainingData :=
  ⟨a.training_examples ++ b.training_examples⟩

/-- Union of two lists keeping the left list's elements and appending the
right list's new elements, used for the spec's union-merge of domains. -/
def listUnion {α : Type} [DecidableEq α] (a b : List α) : List α :=
  a ++ b.filter (fun x => decide (x ∉ a))

/-- Modelled from the spec: the declared vocabulary of a bot
(rasa.core.domain.Domain, not under src/), with the fields the core's
`Domain(...)` constructor call populates. -/
structure Domain where
  intents : List String
  entities : List String
  slots : List String
  templates : List (String × String)
  action_names : List String
  form_names : List String
deriving DecidableEq

/-- Modelled from the spec: the empty Domain (`Domain.empty()`). -/
def Domain.empty : Domain := ⟨[], [], [], [], [], []⟩

/-- Modelled from the spec: Domain merge is the union of all declared
elements across the two domains, field by field. -/
def Domain.merge (a b : Domain) : Domain :=
  ⟨listUnion a.intents b.intents, listUnion a.entities b.entities,
    listUnion a.slots b.slots, listUnion a.templates b.templates,
    listUnion a.action_names b.action_names, listUnion a.form_names b.form_names⟩

/-- Training configuration: a Python dict from string keys to values,
embedded as an insertion-ordered association list with unique keys
maintained by `dictInsert`. -/
abbrev Config : Type := List (String × Int)

/-- Python dict item assignment `d[k] = v`: overwrite in place when the key
is present, append otherwise. -/
def dictInsert (d : Config) (k : String) (v : Int) : Config :=
  if k ∈ d.map Prod.fst then d.map (fun p => if p.1 = k then (k, v) else p)
  else d ++ [(k, v)]

/-- Python dict union of `a` with `b` (`dict(**a, **b)` semantics as used in
the aggregator's reduce): every binding of `b` is inserted into `a` in
order, so `b`'s keys overwrite `a`'s on conflict. -/
def dictUnion (a b : Config) : Config :=
  b.foldl (fun d p => dictInsert d p.1 p.2) a

/-- Python dict lookup `d.get(k)` on the association list: the first
binding of `k`, if any. -/
def dictLookup (k : String) : Config → Option Int
  | [] => none
  | p :: rest => if p.1 = k then some p.2 else dictLookup k rest

/-- First-defined choice of two optional values, used to state lookup
characterisations. -/
def firstSome (x y : Option Int) : Option Int :=
  match x with
  | some v => some v
  | none => y

/-- Arguments of the contract's `get_stories` call.  The interpreter is
opaque to this core and is embedded as a token. -/
structure StoryArgs where
  interp : Nat
  template_variables : Option Config
  use_e2e : Bool
  exclusion_percentage : Option Nat
deriving DecidableEq

/-- Default `get_stories` arguments (RegexInterpreter(), None, False, None),
used when the E2E decorator calls its own `get_stories()` internally. -/
def defaultStoryArgs : StoryArgs := ⟨0, none, false, none⟩

/-- A source importer as the E2E decorator and the filtering decorators see
it on a successful run: the four contract operations as plain values. -/
structure Importer where
  get_domain : Domain
  get_stories : StoryArgs → StoryGraph
  get_config : Config
  get_nlu_data : String → TrainingData

/-- A child importer of the aggregator: each contract operation may fail
with an error of type `ε`, which `asyncio.gather` propagates. -/
structure ExImporter (ε : Type) where
  get_domain : Except ε Domain
  get_stories : StoryArgs → Except ε StoryGraph
  get_config : Except ε Config
  get_nlu_data : String → Except ε TrainingData

/-- The awaited results of `asyncio.gather(*tasks)`: all values in order
when every task succeeds, the first failing task's error otherwise. -/
def gatherE {ε α : Type} : List (Except ε α) → Except ε (List α)
  | [] => Except.ok []
  | Except.error e :: _ => Except.error e
  | Except.ok a :: xs => (gatherE xs).map (fun as => a :: as)

/-- NluDataImporter.get_domain: returns `Domain.empty()` without consulting
the wrapped importer. -/
def NluDataImporter.get_domain (_ : Importer) : Domain := Domain.empty

/-- NluDataImporter.get_stories: returns `StoryGraph([])` for all arguments
without consulting the wrapped importer. -/
def NluDataImporter.get_stories (_ : Importer) (_ : StoryArgs) : StoryGraph := ⟨[]⟩

/-- NluDataImporter.get_config: pure delegation to the wrapped importer. -/
def NluDataImporter.get_config (imp : Importer) : Config := imp.get_config

/-- CombinedDataImporter.get_config: gather every child's config, then
`reduce(lambda merged, other: dict union of merged and other, configs, {})`.
(The source's `other or {}` guard only replaces a falsy value by the empty
dict, which is the identity here.) -/
def CombinedDataImporter.get_config {ε : Type} (imps : List (ExImporter ε)) : Except ε Config :=
  (gatherE (imps.map (fun i => i.get_config))).map
    (fun configs => configs.foldl (fun merged other => dictUnion merged other) [])

/-- CombinedDataImporter.get_domain: gather every child's domain, then fold
with Domain merge starting from `Domain.empty()`. -/
def CombinedDataImporter.get_domain {ε : Type} (imps : List (ExImporter ε)) : Except ε Domain :=
  (gatherE (imps.map (fun i => i.get_domain))).map
    (fun domains => domains.foldl (fun merged other => merged.merge other) Domain.empty)

/-- CombinedDataImporter.get_stories: gather every child's stories, then
fold with StoryGraph merge starting from `StoryGraph([])`. -/
def CombinedDataImporter.get_stories {ε : Type} (imps : List (ExImporter ε))
    (args : StoryArgs) : Except ε StoryGraph :=
  (gatherE (imps.map (fun i => i.get_stories args))).map
    (fun graphs => graphs.foldl (fun merged other => merged.merge other) (⟨[]⟩ : StoryGraph))

/-- CombinedDataImporter.get_nlu_data: gather every child's NLU data, then
fold with TrainingData merge starting from `TrainingData()`. -/
def CombinedDataImporter.get_nlu_data {ε : Type} (imps : List (ExImporter ε))
    (language : String) : Except ε TrainingData :=
  (gatherE (imps.map (fun i => i.get_nlu_data language))).map
    (fun ds => ds.foldl (fun merged other => merged.merge other) TrainingData.empty)

/-- _messages_from_user_utterance: `Message(event.text,
data={MESSAGE_INTENT_NAME: event.intent_name})`. -/
def messages_from_user_utterance (text : String) (intent_name : Option String) : Message :=
  ⟨text, [(MESSAGE_INTENT_NAME, intent_name)]⟩

/-- _messages_from_action: `Message(event.e2e_text or "",
data={MESSAGE_ACTION_NAME: event.action_name, ACTION_TEXT: event.e2e_text or ""})` —
the action text is stored twice, as the primary text and as the dedicated
action-text attribute. -/
def messages_from_action (action_name : String) (e2e_text : Option String) : Message :=
  ⟨orEmpty e2e_text,
    [(MESSAGE_ACTION_NAME, some action_name), (ACTION_TEXT, some (orEmpty e2e_text))]⟩

/-- _message_from_conversation_event: a message for a user utterance, a
message for an action-executed event, `None` for every other event.  (A
returned Message object is always truthy, so `None` is the only value the
caller's `if message:` test filters out.) -/
def message_from_conversation_event : Event → Option Message
  | .userUttered t i => some (messages_from_user_utterance t i)
  | .actionExecuted a e => some (messages_from_action a e)
  | .otherEvent => none

/-- Modelled from the spec: the static registry of built-in action names
owned by the dialogue-management collaborator
(rasa.core.actions.action.default_action_names, not under src/). -/
def default_action_names : List String :=
  ["action_listen", "action_restart", "action_session_start",
    "action_default_fallback", "action_deactivate_form",
    "action_revert_fallback_events", "action_default_ask_affirmation",
    "action_default_ask_rephrase", "action_back"]

/-- _additional_training_data_from_default_actions: one message per built-in
action name, with empty primary text and the action name as sole attribute. -/
def additional_training_data_from_default_actions : TrainingData :=
  ⟨default_action_names.map (fun action_name => ⟨"", [(MESSAGE_ACTION_NAME, some action_name)]⟩)⟩

/-- E2EImporter.get_stories with the cache slot passed explicitly: an unset
cache (`self._cached_stories` is `None`; a StoryGraph object itself is
always truthy) fetches from the wrapped importer with the given arguments
and populates the cache, a set cache is returned unchanged.  The third
component counts the wrapped `get_stories` invocations this call makes. -/
def E2EImporter.get_stories (imp : Importer) (args : StoryArgs)
    (cached : Option StoryGraph) : StoryGraph × Option StoryGraph × Nat :=
  match cached with
  | some sg => (sg, some sg, 0)
  | none =>
      let sg := imp.get_stories args
      (sg, some sg, 1)

/-- E2EImporter._additional_training_data_from_stories: fetch the (cached)
stories via the decorator's own `get_stories()` with default arguments, and
collect a message for every event a message can be made from. -/
def additional_training_data_from_stories (imp : Importer)
    (cached : Option StoryGraph) : TrainingData × Option StoryGraph :=
  let r := E2EImporter.get_stories imp defaultStoryArgs cached
  let msgs := r.1.story_steps.flatMap
    (fun story_step => story_step.events.filterMap message_from_conversation_event)
  (⟨msgs⟩, r.2.1)

/-- E2EImporter._get_domain_with_e2e_actions: scan every step of the
(cached) stories, collect the action name of every action-executed event
whose e2e text is truthy, deduplicate (`list(set(...))`; the set's
iteration order is unspecified, `dedup` is one representative) and build a
domain whose only populated field is that action-name list. -/
def get_domain_with_e2e_actions (imp : Importer)
    (cached : Option StoryGraph) : Domain × Option StoryGraph :=
  let r := E2EImporter.get_stories imp defaultStoryArgs cached
  let additional_e2e_action_names : List String := r.1.story_steps.flatMap
    (fun story_step => story_step.events.filterMap (fun event =>
      match event with
      | .actionExecuted a e => if strTruthy e then some a else none
      | _ => none))
  (⟨[], [], [], [], additional_e2e_action_names.dedup, []⟩, r.2.1)

/-- E2EImporter.get_domain: the wrapped domain merged with the derived
e2e-action domain (the two fetches are gathered; only the derived fetch
touches the story cache). -/
def E2EImporter.get_domain (imp : Importer)
    (cached : Option StoryGraph) : Domain × Option StoryGraph :=
  let original := imp.get_domain
  let r := get_domain_with_e2e_actions imp cached
  (original.merge r.1, r.2)

/-- E2EImporter.get_config: pure delegation to the wrapped importer. -/
def E2EImporter.get_config (imp : Importer) : Config := imp.get_config

/-- E2EImporter.get_nlu_data: the source first builds
`training_datasets = [_additional_training_data_from_default_actions()]`;
the `only_nlu` branch then REASSIGNS `training_datasets` to the gathered
singleton `[wrapped nlu data]`, discarding the default-action data, while
the `else` branch appends the gathered wrapped nlu data and story-derived
data to it.  Both branches fold with TrainingData merge from
`TrainingData()`. -/
def E2EImporter.get_nlu_data (imp : Importer) (language : String) (only_nlu : Bool)
    (cached : Option StoryGraph) : TrainingData × Option StoryGraph :=
  if only_nlu then
    let training_datasets := [imp.get_nlu_data language]
    (training_datasets.foldl (fun merged other => merged.merge other) TrainingData.empty,
      cached)
  else
    let r := additional_training_data_from_stories imp cached
    let training_datasets :=
      [additional_training_data_from_default_actions, imp.get_nlu_data language, r.1]
    (training_datasets.foldl (fun merged other => merged.merge other) TrainingData.empty,
      r.2)

/-- Sequence of E2EImporter.get_stories calls from a given cache state:
the per-call results, the final cache state, and the total number of
wrapped `get_stories` invocations. -/
def run_get_stories (imp : Importer) (cached : Option StoryGraph) :
    List StoryArgs → List StoryGraph × Option StoryGraph × Nat
  | [] => ([], cached, 0)
  | a :: as =>
      let r := E2EImporter.get_stories imp a cached
      let rest := run_get_stories imp r.2.1 as
      (r.1 :: rest.1, rest.2.1, r.2.2 + rest.2.2)

/-- A wrapped importer with no data at all, used to evaluate the decorators
at a concrete input. -/
def emptyImporter : Importer :=
  ⟨Domain.empty, fun _ => ⟨[]⟩, [], fun _ => TrainingData.empty⟩

/-- The spec's example story graph: one step with a user-utterance event
(text "book a table", intent "reserve") and one action-executed event
(action "utter_confirm", end-to-end text "Sure, done!"). -/
def storyW : StoryGraph :=
  ⟨[⟨[.userUttered "book a table" (some "reserve"),
      .actionExecuted "utter_confirm" (some "Sure, done!")]⟩]⟩

/-- A wrapped importer whose stories are `storyW` and whose own domain
omits "utter_confirm". -/
def storyImporterW : Importer :=
  ⟨Domain.empty, fun _ => storyW, [], fun _ => TrainingData.empty⟩

/-- A wrapped importer whose single story event is an action-executed event
without end-to-end text. -/
def noTextStoryImporter : Importer :=
  ⟨Domain.empty, fun _ => ⟨[⟨[.actionExecuted "utter_x" none]⟩]⟩, [],
    fun _ => TrainingData.empty⟩

/-- A child importer every operation of which fails with the error "boom". -/
def failingImporter : ExImporter String :=
  ⟨Except.error "boom", fun _ => Except.error "boom", Except.error "boom",
    fun _ => Except.error "boom"⟩

/-- A child importer whose config is the dict with a = 1. -/
def importerA : ExImporter Unit :=
  ⟨Except.ok Domain.empty, fun _ => Except.ok ⟨[]⟩, Except.ok [("a", 1)],
    fun _ => Except.ok TrainingData.empty⟩

/-- A child importer whose config is the dict with a = 2, b = 3. -/
def importerB : ExImporter Unit :=
  ⟨Except.ok Domain.empty, fun _ => Except.ok ⟨[]⟩, Except.ok [("a", 2), ("b", 3)],
    fun _ => Except.ok TrainingData.empty⟩

/-- C10: a CombinedDataImporter constructed with an empty list of child
importers returns each type's empty value from every operation: the empty
Domain, the empty StoryGraph, the empty TrainingData and the empty config
mapping. -/
theorem combined_empty_importers (ε : Type) (args : StoryArgs) (lang : String) :
    CombinedDataImporter.get_domain ([] : List (ExImporter ε)) = Except.ok Domain.empty ∧
    CombinedDataImporter.get_stories ([] : List (ExImporter ε)) args =
      Except.ok (⟨[]⟩ : StoryGraph) ∧
    CombinedDataImporter.get_nlu_data ([] : List (ExImporter ε)) lang =
      Except.ok TrainingData.empty ∧
    CombinedDataImporter.get_config ([] : List (ExImporter ε)) = Except.ok [] :=
  ⟨rfl, rfl, rfl, rfl⟩

/-- C9: NluDataImporter returns the empty Domain and the empty StoryGraph
for every wrapped importer and all get_stories arguments, and delegates
get_config unchanged to the wrapped importer. -/
theorem nlu_data_importer_filters (imp : Importer) (args : StoryArgs) :
    NluDataImporter.get_domain imp = Domain.empty ∧
    NluDataImporter.get_stories imp args = (⟨[]⟩ : StoryGraph) ∧
    NluDataImporter.get_config imp = imp.get_config :=
  ⟨rfl, rfl, rfl⟩

/-- Helper: with a populated cache slot, every E2EImporter.get_stories call
returns the cached graph, leaves the cache unchanged and never invokes the
wrapped importer. -/
theorem run_get_stories_cached (imp : Importer) (sg : StoryGraph) :
    ∀ as : List StoryArgs,
      run_get_stories imp (some sg) as = (List.replicate as.length sg, some sg, 0)
  | [] => rfl
  | _ :: as => by
      simp [run_get_stories, E2EImporter.get_stories, run_get_stories_cached imp sg as,
        List.replicate_succ]

/-- C3: starting from an unset cache, a sequence of get_stories calls with
arbitrary (and arbitrarily different) arguments returns the first-fetched
StoryGraph every time, caches exactly that graph, and invokes the wrapped
importer's get_stories exactly once in total. -/
theorem e2e_get_stories_single_fetch (imp : Importer) (args1 : StoryArgs)
    (rest : List StoryArgs) :
    run_get_stories imp none (args1 :: rest) =
      (List.replicate (rest.length + 1) (imp.get_stories args1),
        some (imp.get_stories args1), 1) := by
  simp [run_get_stories, E2EImporter.get_stories, run_get_stories_cached,
    List.replicate_succ]

/-- C1: with only_nlu = true, E2EImporter.get_nlu_data returns exactly the
wrapped importer's NLU data and leaves the cache untouched; the
default-action training data (nine messages) is discarded, so on a wrapped
importer with empty NLU data the result is empty. -/
theorem e2e_only_nlu_drops_default_actions (imp : Importer) (language : String)
    (cached : Option StoryGraph) :
    (E2EImporter.get_nlu_data imp language true cached).1.training_examples =
      (imp.get_nlu_data language).training_examples ∧
    (E2EImporter.get_nlu_data imp language true cached).2 = cached ∧
    (E2EImporter.get_nlu_data emptyImporter "en" true none).1.training_examples = [] ∧
    additional_training_data_from_default_actions.training_examples.length = 9 := by
  refine ⟨?_, rfl, rfl, rfl⟩
  simp [E2EImporter.get_nlu_data, TrainingData.merge, TrainingData.empty]

/-- C2 counterexample: an action-executed event without end-to-end text
does contribute a message to the story-derived training data (with empty
primary text, the action name, and empty action-text), and that message
reaches the E2EImporter.get_nlu_data (only_nlu = false) result. -/
theorem action_without_text_contributes_message :
    (additional_training_data_from_stories noTextStoryImporter none).1.training_examples =
      [⟨"", [(MESSAGE_ACTION_NAME, some "utter_x"), (ACTION_TEXT, some "")]⟩] ∧
    (⟨"", [(MESSAGE_ACTION_NAME, some "utter_x"), (ACTION_TEXT, some "")]⟩ : Message) ∈
      (E2EImporter.get_nlu_data noTextStoryImporter "en" false none).1.training_examples := by
  exact ⟨rfl, by decide⟩

/-- C2 (amended): an action-executed event whose end-to-end text is absent
or empty contributes exactly one message, with empty primary text, the
action name as action-name attribute, and an empty action-text attribute. -/
theorem action_without_text_message_amended (a : String) (e : Option String)
    (he : strTruthy e = false) :
    message_from_conversation_event (.actionExecuted a e) =
      some ⟨"", [(MESSAGE_ACTION_NAME, some a), (ACTION_TEXT, some "")]⟩ := by
  simp [message_from_conversation_event, messages_from_action, orEmpty, he]

/-- Witness for the amended C2 theorem at a concrete input. -/
theorem action_without_text_message_amended_witness :
    message_from_conversation_event (.actionExecuted "utter_x" none) =
      some ⟨"", [(MESSAGE_ACTION_NAME, some "utter_x"), (ACTION_TEXT, some "")]⟩ :=
  action_without_text_message_amended "utter_x" none rfl

/-- Helper: gathering a list of successful results succeeds with the values
in order. -/
theorem gatherE_all_ok {ε α : Type} (xs : List α) :
    gatherE (xs.map (Except.ok : α → Except ε α)) = Except.ok xs := by
  induction xs with
  | nil => rfl
  | cons x xs ih => simp [gatherE, ih, Except.map]

/-- Helper: gathering fails with the first failing task's error. -/
theorem gatherE_first_error {ε α : Type} (xs ys : List (Except ε α)) (e : ε)
    (h : ∀ x ∈ xs, ∃ a, x = Except.ok a) :
    gatherE (xs ++ Except.error e :: ys) = Except.error e := by
  induction xs with
  | nil => rfl
  | cons x xs ih =>
      obtain ⟨a, rfl⟩ := h x (by simp)
      rw [List.cons_append]
      simp [gatherE, ih (fun x hx => h x (by simp [hx])), Except.map]

/-- Helper: a gather over the images of a child list fails with the bad
child's error when every earlier child succeeds. -/
theorem gatherE_map_error {ε α : Type} (g : ExImporter ε → Except ε α)
    (pre post : List (ExImporter ε)) (bad : ExImporter ε) (e : ε)
    (hpre : ∀ i ∈ pre, ∃ a, g i = Except.ok a) (hbad : g bad = Except.error e) :
    gatherE ((pre ++ bad :: post).map g) = Except.error e := by
  rw [List.map_append, List.map_cons, hbad]
  apply gatherE_first_error
  intro x hx
  obtain ⟨i, hi, rfl⟩ := List.mem_map.mp hx
  exact hpre i hi

/-- C7: for each of the four aggregate operations, when one child fails
(and the children before it succeed), the whole CombinedDataImporter
operation fails with exactly that child's error — no partial result. -/
theorem combined_error_propagation {ε : Type} (pre post : List (ExImporter ε))
    (bad : ExImporter ε) (e : ε) (args : StoryArgs) (lang : String) :
    ((∀ i ∈ pre, ∃ d, i.get_domain = Except.ok d) → bad.get_domain = Except.error e →
      CombinedDataImporter.get_domain (pre ++ bad :: post) = Except.error e) ∧
    ((∀ i ∈ pre, ∃ s, i.get_stories args = Except.ok s) →
      bad.get_stories args = Except.error e →
      CombinedDataImporter.get_stories (pre ++ bad :: post) args = Except.error e) ∧
    ((∀ i ∈ pre, ∃ c, i.get_config = Except.ok c) → bad.get_config = Except.error e →
      CombinedDataImporter.get_config (pre ++ bad :: post) = Except.error e) ∧
    ((∀ i ∈ pre, ∃ d, i.get_nlu_data lang = Except.ok d) →
      bad.get_nlu_data lang = Except.error e →
      CombinedDataImporter.get_nlu_data (pre ++ bad :: post) lang = Except.error e) := by
  refine ⟨fun hpre hbad => ?_, fun hpre hbad => ?_, fun hpre hbad => ?_, fun hpre hbad => ?_⟩
  · unfold CombinedDataImporter.get_domain
    rw [gatherE_map_error (fun i => i.get_domain) pre post bad e hpre hbad]
    rfl
  · unfold CombinedDataImporter.get_stories
    rw [gatherE_map_error (fun i => i.get_stories args) pre post bad e hpre hbad]
    rfl
  · unfold CombinedDataImporter.get_config
    rw [gatherE_map_error (fun i => i.get_config) pre post bad e hpre hbad]
    rfl
  · unfold CombinedDataImporter.get_nlu_data
    rw [gatherE_map_error (fun i => i.get_nlu_data lang) pre post bad e hpre hbad]
    rfl

/-- Witness for C7 at a concrete input: a single failing child makes each
aggregate operation fail with its error. -/
theorem combined_error_propagation_witness :
    CombinedDataImporter.get_domain [failingImporter] = Except.error "boom" ∧
    CombinedDataImporter.get_stories [failingImporter] defaultStoryArgs =
      Except.error "boom" ∧
    CombinedDataImporter.get_config [failingImporter] = Except.error "boom" ∧
    CombinedDataImporter.get_nlu_data [failingImporter] "en" = Except.error "boom" := by
  have h := combined_error_propagation ([] : List (ExImporter String)) [] failingImporter
    "boom" defaultStoryArgs "en"
  exact ⟨h.1 (by simp) rfl, h.2.1 (by simp) rfl, h.2.2.1 (by simp) rfl,
    h.2.2.2 (by simp) rfl⟩

/-- Helper: `firstSome` with no fallback. -/
theorem firstSome_none_right (x : Option Int) : firstSome x none = x := by
  cases x <;> rfl

/-- Helper: `firstSome` is associative. -/
theorem firstSome_assoc (x y z : Option Int) :
    firstSome (firstSome x y) z = firstSome x (firstSome y z) := by
  cases x <;> rfl

/-- Helper: lookup in an appended association list prefers the left part. -/
theorem dictLookup_append (k : String) (a b : Config) :
    dictLookup k (a ++ b) = firstSome (dictLookup k a) (dictLookup k b) := by
  induction a with
  | nil => rfl
  | cons p a ih =>
      by_cases hp : p.1 = k <;> simp [dictLookup, hp, ih, firstSome]

/-- Helper: overwriting the bindings of a key other than the looked-up one
does not change the lookup. -/
theorem dictLookup_map_ne (d : Config) (k kk : String) (v : Int) (h : kk ≠ k) :
    dictLookup k (d.map (fun p => if p.1 = kk then (kk, v) else p)) = dictLookup k d := by
  induction d with
  | nil => rfl
  | cons p d ih =>
      by_cases hp : p.1 = kk
      · simp [dictLookup, hp, h, ih]
      · simp [dictLookup, hp, ih]

/-- Helper: overwriting the bindings of the looked-up key makes the lookup
return the new value, provided the key is bound at all. -/
theorem dictLookup_map_self (d : Config) (k : String) (v : Int)
    (h : k ∈ d.map Prod.fst) :
    dictLookup k (d.map (fun p => if p.1 = k then (k, v) else p)) = some v := by
  induction d with
  | nil => simp at h
  | cons p d ih =>
      by_cases hp : p.1 = k
      · simp [dictLookup, hp]
      · rw [List.map_cons] at h
        rcases List.mem_cons.mp h with h1 | h1
        · exact absurd h1.symm hp
        · simp [dictLookup, hp, ih h1]

/-- Helper: looking up an unbound key yields nothing. -/
theorem dictLookup_not_mem (d : Config) (k : String) (h : k ∉ d.map Prod.fst) :
    dictLookup k d = none := by
  induction d with
  | nil => rfl
  | cons p d ih =>
      simp only [List.map_cons, List.mem_cons, not_or] at h
      simp [dictLookup, Ne.symm h.1, ih h.2]

/-- Helper: lookup after a dict item assignment. -/
theorem dictLookup_dictInsert (d : Config) (k kk : String) (v : Int) :
    dictLookup k (dictInsert d kk v) = if kk = k then some v else dictLookup k d := by
  unfold dictInsert
  by_cases hm : kk ∈ d.map Prod.fst
  · rw [if_pos hm]
    by_cases hk : kk = k
    · subst hk
      rw [if_pos rfl, dictLookup_map_self d kk v hm]
    · rw [if_neg hk, dictLookup_map_ne d k kk v hk]
  · rw [if_neg hm, dictLookup_append]
    by_cases hk : kk = k
    · subst hk
      rw [if_pos rfl, dictLookup_not_mem d kk hm]
      simp [dictLookup, firstSome]
    · rw [if_neg hk]
      have h1 : dictLookup k [(kk, v)] = none := by simp [dictLookup, hk]
      rw [h1, firstSome_none_right]

/-- Helper: lookup in a dict union is the latest binding of the right dict,
with the left dict as fallback. -/
theorem dictLookup_dictUnion (k : String) (b a : Config) :
    dictLookup k (dictUnion a b) = firstSome (dictLookup k b.reverse) (dictLookup k a) := by
  induction b generalizing a with
  | nil => simp [dictUnion, dictLookup, firstSome]
  | cons p b ih =>
      have h1 : dictUnion a (p :: b) = dictUnion (dictInsert a p.1 p.2) b := rfl
      rw [h1, ih, dictLookup_dictInsert, List.reverse_cons, dictLookup_append,
        firstSome_assoc]
      congr 1
      by_cases hp : p.1 = k
      · simp [dictLookup, hp, firstSome]
      · simp [dictLookup, hp, firstSome]

/-- Helper: lookup in the left fold of dict unions is the latest binding
across the concatenation of all the dicts. -/
theorem dictLookup_config_fold (k : String) (cfgs : List Config) (a : Config) :
    dictLookup k (cfgs.foldl (fun merged other => dictUnion merged other) a) =
      firstSome (dictLookup k cfgs.flatten.reverse) (dictLookup k a) := by
  induction cfgs generalizing a with
  | nil => rfl
  | cons c cfgs ih =>
      rw [List.foldl_cons, ih, List.flatten_cons, List.reverse_append,
        dictLookup_append, firstSome_assoc, dictLookup_dictUnion]

/-- C6: when every child's get_config succeeds, CombinedDataImporter's
config is the left-to-right dict-union fold of the children's configs from
the empty dict; any key looks up to its latest binding across the children
(later children overwrite earlier ones); and the children with configs
a = 1 and a = 2, b = 3 combine to exactly a = 2, b = 3. -/
theorem combined_config_last_wins {ε : Type} (imps : List (ExImporter ε))
    (cfgs : List Config) (k : String)
    (h : imps.map (fun i => i.get_config) = cfgs.map Except.ok) :
    CombinedDataImporter.get_config imps =
      Except.ok (cfgs.foldl (fun merged other => dictUnion merged other) []) ∧
    dictLookup k (cfgs.foldl (fun merged other => dictUnion merged other) []) =
      dictLookup k cfgs.flatten.reverse ∧
    CombinedDataImporter.get_config [importerA, importerB] =
      Except.ok [("a", 2), ("b", 3)] := by
  refine ⟨?_, ?_, by rfl⟩
  · unfold CombinedDataImporter.get_config
    rw [h, gatherE_all_ok]
    rfl
  · rw [dictLookup_config_fold]
    exact firstSome_none_right _

/-- Witness for C6 at a concrete input. -/
theorem combined_config_last_wins_witness :
    CombinedDataImporter.get_config [importerA, importerB] =
      Except.ok (([[("a", 1)], [("a", 2), ("b", 3)]] : List Config).foldl
        (fun merged other => dictUnion merged other) []) ∧
    dictLookup "a" (([[("a", 1)], [("a", 2), ("b", 3)]] : List Config).foldl
        (fun merged other => dictUnion merged other) []) =
      dictLookup "a" ([[("a", 1)], [("a", 2), ("b", 3)]] : List Config).flatten.reverse ∧
    CombinedDataImporter.get_config [importerA, importerB] =
      Except.ok [("a", 2), ("b", 3)] :=
  combined_config_last_wins [importerA, importerB]
    [[("a", 1)], [("a", 2), ("b", 3)]] "a" rfl

/-- Helper: membership in a list union. -/
theorem mem_listUnion {α : Type} [DecidableEq α] (x : α) (a b : List α) :
    x ∈ listUnion a b ↔ x ∈ a ∨ x ∈ b := by
  simp only [listUnion, List.mem_append, List.mem_filter, decide_eq_true_eq]
  tauto

/-- Helper: listUnion with an empty right operand. -/
theorem listUnion_nil {α : Type} [DecidableEq α] (a : List α) : listUnion a [] = a := by
  simp [listUnion]

/-- C4: E2EImporter.get_domain leaves every wrapped domain field except the
action names unchanged (the derived domain's other fields are empty), the
derived action-name list is duplicate-free, and an action name is in the
returned domain exactly when the wrapped domain declares it or some story
step holds an action-executed event with that name and truthy end-to-end
text; in particular "utter_confirm", appearing only as an e2e story event,
is in the returned action set of `storyImporterW`. -/
theorem e2e_get_domain_action_names (imp : Importer) (cached : Option StoryGraph)
    (nm : String) :
    (E2EImporter.get_domain imp cached).1 =
      imp.get_domain.merge (get_domain_with_e2e_actions imp cached).1 ∧
    (get_domain_with_e2e_actions imp cached).1.intents = [] ∧
    (get_domain_with_e2e_actions imp cached).1.entities = [] ∧
    (get_domain_with_e2e_actions imp cached).1.slots = [] ∧
    (get_domain_with_e2e_actions imp cached).1.templates = [] ∧
    (get_domain_with_e2e_actions imp cached).1.form_names = [] ∧
    (E2EImporter.get_domain imp cached).1.intents = imp.get_domain.intents ∧
    (E2EImporter.get_domain imp cached).1.form_names = imp.get_domain.form_names ∧
    (get_domain_with_e2e_actions imp cached).1.action_names.Nodup ∧
    ((nm ∈ (E2EImporter.get_domain imp cached).1.action_names) ↔
      (nm ∈ imp.get_domain.action_names ∨
        ∃ step ∈ (E2EImporter.get_stories imp defaultStoryArgs cached).1.story_steps,
          ∃ e2e, Event.actionExecuted nm e2e ∈ step.events ∧ strTruthy e2e = true)) ∧
    "utter_confirm" ∈ (E2EImporter.get_domain storyImporterW none).1.action_names := by
  refine ⟨rfl, rfl, rfl, rfl, rfl, rfl, ?_, ?_, ?_, ?_, by decide⟩
  · show listUnion imp.get_domain.intents [] = imp.get_domain.intents
    exact listUnion_nil _
  · show listUnion imp.get_domain.form_names [] = imp.get_domain.form_names
    exact listUnion_nil _
  · exact List.nodup_dedup _
  · show nm ∈ listUnion imp.get_domain.action_names _ ↔ _
    rw [mem_listUnion]
    simp only [get_domain_with_e2e_actions]
    rw [List.mem_dedup, List.mem_flatMap]
    apply or_congr Iff.rfl
    apply exists_congr
    intro step
    apply and_congr Iff.rfl
    rw [List.mem_filterMap]
    constructor
    · rintro ⟨ev, hev, hpick⟩
      cases ev with
      | userUttered t i => simp at hpick
      | actionExecuted a e =>
          replace hpick : (if strTruthy e = true then some a else none) = some nm := hpick
          by_cases he : strTruthy e
          · rw [if_pos he] at hpick
            obtain rfl : a = nm := Option.some.inj hpick
            exact ⟨e, hev, he⟩
          · rw [if_neg he] at hpick
            exact absurd hpick (by simp)
      | otherEvent => simp at hpick
    · rintro ⟨e2e, hmem, he⟩
      refine ⟨Event.actionExecuted nm e2e, hmem, ?_⟩
      show (if strTruthy e2e = true then some nm else none) = some nm
      rw [if_pos he]

/-- Helper: the only_nlu = false NLU data is the default-action data, then
the wrapped data, then the story-derived data, concatenated. -/
theorem e2e_nlu_data_examples (imp : Importer) (lang : String)
    (cached : Option StoryGraph) :
    (E2EImporter.get_nlu_data imp lang false cached).1.training_examples =
      additional_training_data_from_default_actions.training_examples ++
      ((imp.get_nlu_data lang).training_examples ++
        (additional_training_data_from_stories imp cached).1.training_examples) := by
  simp [E2EImporter.get_nlu_data, TrainingData.merge, TrainingData.empty]

/-- C5: with the example story graph cached in from the wrapped importer,
E2EImporter.get_nlu_data (only_nlu = false) contains a message whose intent
attribute is "reserve", and a message whose primary text is "Sure, done!",
whose action-name attribute is "utter_confirm" and whose action-text
attribute duplicates "Sure, done!". -/
theorem e2e_nlu_data_includes_story_examples (imp : Importer)
    (h : imp.get_stories defaultStoryArgs = storyW) :
    (∃ m ∈ (E2EImporter.get_nlu_data imp "en" false none).1.training_examples,
      getAttr m MESSAGE_INTENT_NAME = some "reserve") ∧
    (∃ m ∈ (E2EImporter.get_nlu_data imp "en" false none).1.training_examples,
      m.text = "Sure, done!" ∧
        getAttr m MESSAGE_ACTION_NAME = some "utter_confirm" ∧
        getAttr m ACTION_TEXT = some "Sure, done!") := by
  have hstory : (additional_training_data_from_stories imp none).1.training_examples =
      [⟨"book a table", [(MESSAGE_INTENT_NAME, some "reserve")]⟩,
        ⟨"Sure, done!", [(MESSAGE_ACTION_NAME, some "utter_confirm"),
          (ACTION_TEXT, some "Sure, done!")]⟩] := by
    simp [additional_training_data_from_stories, E2EImporter.get_stories, h, storyW,
      message_from_conversation_event, messages_from_user_utterance,
      messages_from_action, orEmpty, strTruthy]
  constructor
  · refine ⟨⟨"book a table", [(MESSAGE_INTENT_NAME, some "reserve")]⟩, ?_, by rfl⟩
    rw [e2e_nlu_data_examples, hstory]
    simp
  · refine ⟨⟨"Sure, done!", [(MESSAGE_ACTION_NAME, some "utter_confirm"),
      (ACTION_TEXT, some "Sure, done!")]⟩, ?_, rfl, by rfl, by rfl⟩
    rw [e2e_nlu_data_examples, hstory]
    simp

/-- Witness for C5 at a concrete wrapped importer. -/
theorem e2e_nlu_data_includes_story_examples_witness :
    (∃ m ∈ (E2EImporter.get_nlu_data storyImporterW "en" false none).1.training_examples,
      getAttr m MESSAGE_INTENT_NAME = some "reserve") ∧
    (∃ m ∈ (E2EImporter.get_nlu_data storyImporterW "en" false none).1.training_examples,
      m.text = "Sure, done!" ∧
        getAttr m MESSAGE_ACTION_NAME = some "utter_confirm" ∧
        getAttr m ACTION_TEXT = some "Sure, done!") :=
  e2e_nlu_data_includes_story_examples storyImporterW rfl

/-- Shape invariant of a message the E2E decorator synthesizes: its
attribute keys are exactly the intent key, exactly the action-name key, or
exactly the action-name and action-text keys with the action text
duplicating the primary text. -/
def messageShapeOk (m : Message) : Prop :=
  m.data.map Prod.fst = [MESSAGE_INTENT_NAME] ∨
  m.data.map Prod.fst = [MESSAGE_ACTION_NAME] ∨
  (m.data.map Prod.fst = [MESSAGE_ACTION_NAME, ACTION_TEXT] ∧
    getAttr m ACTION_TEXT = some m.text)

/-- C8: every message in the E2E NLU result that is not the wrapped
importer's own satisfies the shape invariant; user-utterance messages carry
exactly the intent attribute (no action name, no action text), action
messages carry exactly the action-name and action-text attributes (no
intent), the action text always duplicates the primary text, and it is
truthy exactly when the event's end-to-end text is. -/
theorem synthesized_message_shape (imp : Importer) (lang : String)
    (cached : Option StoryGraph) (m : Message) (t a : String) (i e : Option String)
    (hm : m ∈ (E2EImporter.get_nlu_data imp lang false cached).1.training_examples) :
    (m ∈ (imp.get_nlu_data lang).training_examples ∨ messageShapeOk m) ∧
    (messages_from_user_utterance t i).data.map Prod.fst = [MESSAGE_INTENT_NAME] ∧
    getAttr (messages_from_user_utterance t i) MESSAGE_INTENT_NAME = i ∧
    getAttr (messages_from_user_utterance t i) MESSAGE_ACTION_NAME = none ∧
    getAttr (messages_from_user_utterance t i) ACTION_TEXT = none ∧
    (messages_from_action a e).data.map Prod.fst = [MESSAGE_ACTION_NAME, ACTION_TEXT] ∧
    getAttr (messages_from_action a e) MESSAGE_INTENT_NAME = none ∧
    getAttr (messages_from_action a e) MESSAGE_ACTION_NAME = some a ∧
    getAttr (messages_from_action a e) ACTION_TEXT =
      some ((messages_from_action a e).text) ∧
    strTruthy (getAttr (messages_from_action a e) ACTION_TEXT) = strTruthy e := by
  refine ⟨?_, rfl, rfl, rfl, rfl, rfl, rfl, rfl, rfl, ?_⟩
  · rw [e2e_nlu_data_examples] at hm
    rcases List.mem_append.mp hm with hdef | hm
    · obtain ⟨nmx, _, rfl⟩ := List.mem_map.mp hdef
      exact Or.inr (Or.inr (Or.inl rfl))
    rcases List.mem_append.mp hm with hwrapped | hstory
    · exact Or.inl hwrapped
    · obtain ⟨step, _, hms⟩ := List.mem_flatMap.mp hstory
      obtain ⟨ev, _, hev⟩ := List.mem_filterMap.mp hms
      cases ev with
      | userUttered tt ii =>
          obtain rfl := Option.some.inj hev
          exact Or.inr (Or.inl rfl)
      | actionExecuted aa ee =>
          obtain rfl := Option.some.inj hev
          exact Or.inr (Or.inr (Or.inr ⟨rfl, rfl⟩))
      | otherEvent => simp [message_from_conversation_event] at hev
  · show strTruthy (some (orEmpty e)) = strTruthy e
    cases e with
    | none => rfl
    | some s =>
        by_cases hs : s = ""
        · subst hs; rfl
        · simp [orEmpty, strTruthy, hs]

/-- Witness for C8 at a concrete input: a default-action message of the
result over the empty wrapped importer. -/
theorem synthesized_message_shape_witness :
    ((⟨"", [(MESSAGE_ACTION_NAME, some "action_listen")]⟩ : Message) ∈
        (emptyImporter.get_nlu_data "en").training_examples ∨
      messageShapeOk ⟨"", [(MESSAGE_ACTION_NAME, some "action_listen")]⟩) ∧
    (messages_from_user_utterance "hi" (some "greet")).data.map Prod.fst =
      [MESSAGE_INTENT_NAME] ∧
    getAttr (messages_from_user_utterance "hi" (some "greet")) MESSAGE_INTENT_NAME =
      some "greet" ∧
    getAttr (messages_from_user_utterance "hi" (some "greet")) MESSAGE_ACTION_NAME =
      none ∧
    getAttr (messages_from_user_utterance "hi" (some "greet")) ACTION_TEXT = none ∧
    (messages_from_action "utter_hi" (some "hello")).data.map Prod.fst =
      [MESSAGE_ACTION_NAME, ACTION_TEXT] ∧
    getAttr (messages_from_action "utter_hi" (some "hello")) MESSAGE_INTENT_NAME =
      none ∧
    getAttr (messages_from_action "utter_hi" (some "hello")) MESSAGE_ACTION_NAME =
      some "utter_hi" ∧
    getAttr (messages_from_action "utter_hi" (some "hello")) ACTION_TEXT =
      some ((messages_from_action "utter_hi" (some "hello")).text) ∧
    strTruthy (getAttr (messages_from_action "utter_hi" (some "hello")) ACTION_TEXT) =
      strTruthy (some "hello") :=
  synthesized_message_shape emptyImporter "en" none
    ⟨"", [(MESSAGE_ACTION_NAME, some "action_listen")]⟩ "hi" "utter_hi"
    (some "greet") (some "hello") (by decide)

end RasaImporters
